import Mathlib

/-!
# Verification of the FaSt_PUC value-to-prefixed-string formatter

Shallow embedding of `src/fast_puc/fast_puc.py` (functions `puc` and `get_prefix`).

Modelling conventions:
* Python / numpy double-precision floats are idealised as exact values of an
  inductive type `NpFloat` that carries a rational (`fin q`), the two
  infinities and `nan`.  All arithmetic appearing in the source
  (`*`, `-`, `abs`, `np.round`, integer powers `10 ** k`,
  `np.floor(np.log10 _)`, comparisons with IEEE nan semantics) is exact on
  this type; `np.floor(np.log10 q)` of a positive rational is an integer and
  is computed exactly by `ratFloorLog10`.
* The only transcendental value the source ever *renders* is
  `10 * np.log10(val)` in the dB branch.  Its digits are not determined by
  rational arithmetic, so the `np.log10` rendering primitive is abstracted as
  an oracle parameter `L : ℚ → ℚ` of the formatter (theorems about the other
  branches hold for every oracle; `npLog10Trivial` is used for concrete
  evaluations that never consult it).
* Python errors are values of `PucError`; the `(string, mult, prefix)`
  verbose return is `PucResult.triple`, and the fact that `mult`/`prefix`
  are only bound in the generic-unit branch is modelled by an
  `Option (ℤ × String)` that `finalize` demands when `verbose` is true.
* Python's `"{0:.Ng}".format x` general float format is implemented exactly
  over rationals by `gformatQ` (round to N significant digits half-to-even,
  fixed notation iff `-4 ≤ exp < N`, otherwise scientific with a
  two-digit-padded exponent, trailing zeros stripped).
-/

set_option maxRecDepth 10000

/- Batteries marks the `Rat` field operations `@[irreducible]`; restore the
default reducibility so that `decide` can evaluate the embedding on concrete
rationals (this touches elaboration only — kernel checking is unaffected). -/
set_option allowUnsafeReducibility true
attribute [local semireducible] Rat.mul Rat.inv Rat.add Rat.sub Rat.ofScientific

/-- Fuel-driven `⌊log10 n⌋` on naturals (`natLog10 0 = 0`); structural
recursion so that the kernel can evaluate it on literals. -/
def natLog10Aux : ℕ → ℕ → ℕ
  | 0, _ => 0
  | Nat.succ fuel, n => if n < 10 then 0 else natLog10Aux fuel (n / 10) + 1

/-- `⌊log10 n⌋` for `1 ≤ n` (and `0` at `n = 0`). -/
def natLog10 (n : ℕ) : ℕ := natLog10Aux n n

/-- Floor of a rational, computed as floored integer division. -/
def qfloor (q : ℚ) : ℤ := Int.fdiv q.num (q.den : ℤ)

/-- Truncation toward zero of a rational: Python's `int(_)` on a float. -/
def qtrunc (q : ℚ) : ℤ := Int.tdiv q.num (q.den : ℤ)

/-- Exact integer power of ten `10 ** k` as a rational. -/
def qpow10 (k : ℤ) : ℚ := if 0 ≤ k then (10 : ℚ) ^ k.toNat else ((10 : ℚ) ^ (-k).toNat)⁻¹

/-- `np.round`: round half to even, as an integer. -/
def rnd (q : ℚ) : ℤ :=
  let f := qfloor q
  let fr := q - (f : ℚ)
  if fr < 1 / 2 then f
  else if 1 / 2 < fr then f + 1
  else if f % 2 = 0 then f else f + 1

/-- `⌊log10 q⌋` for a positive rational, exactly (callers guard `0 < q`). -/
def ratFloorLog10 (q : ℚ) : ℤ :=
  if 1 ≤ q then (natLog10 (qfloor q).toNat : ℤ)
  else
    let m := natLog10 (qfloor q⁻¹).toNat
    if q * qpow10 (m : ℤ) = 1 then -(m : ℤ) else -(m : ℤ) - 1

/-- A numeric `value` argument: a scalar, or an array-like whose entries are
numeric (`some q`) or non-numeric (`none`, e.g. a string entry). -/
inductive NpValue where
  | scalar (q : ℚ)
  | arr (entries : List (Option ℚ))
deriving DecidableEq

/-- The ways a `puc` call can raise, one constructor per distinct Python
error site. -/
inductive PucError where
  /-- `ValueError("Cannot convert value '{value}' to float: ...")` raised by
  the guarded `np.squeeze(value).astype(float)`; carries the offending
  input, which the Python message names. -/
  | valueConversion (offending : NpValue)
  /-- `ValueError: The truth value of an array with more than one element is
  ambiguous`, raised at `if val < 0` when the converted value is still an
  array. -/
  | ambiguousTruth
  /-- `ValueError` from `np.min` of the empty diff array (precision sequence
  shorter than two elements). -/
  | zeroSizeReduction
  /-- `OverflowError` from `int(precision)` when the derived precision is
  infinite. -/
  | overflow
  /-- `ValueError` from `int(precision)` when the derived precision is nan. -/
  | nanToInt
  /-- `ValueError: Invalid format specifier` when `int(precision)` is
  negative. -/
  | invalidFormatSpec
  /-- `UnboundLocalError` for a local variable read before assignment. -/
  | unboundLocal (name : String)
deriving DecidableEq

/-- Result of a successful `puc` call: plain string, or the verbose
`(string, multiplier, prefix_symbol)` triple. -/
inductive PucResult where
  | str (s : String)
  | triple (s : String) (mult : ℤ) (pfx : String)
deriving DecidableEq

/-- Decidable equality for `Except`, so that concrete runs of the formatter
can be checked by `decide`. -/
instance exceptDecEq {ε α : Type} [DecidableEq ε] [DecidableEq α] : DecidableEq (Except ε α) :=
  fun a b =>
    match a, b with
    | .ok x, .ok y => if h : x = y then .isTrue (by rw [h]) else .isFalse (by simp [h])
    | .error x, .error y => if h : x = y then .isTrue (by rw [h]) else .isFalse (by simp [h])
    | .ok _, .error _ => .isFalse (by simp)
    | .error _, .ok _ => .isFalse (by simp)

/-- Idealised numpy double: exact rational, infinities, or nan. -/
inductive NpFloat where
  | fin (q : ℚ)
  | posInf
  | negInf
  | nan
deriving DecidableEq

namespace NpFloat

/-- IEEE negation. -/
def neg : NpFloat → NpFloat
  | fin q => fin (-q)
  | posInf => negInf
  | negInf => posInf
  | nan => nan

/-- IEEE addition (`inf + -inf = nan`). -/
def add : NpFloat → NpFloat → NpFloat
  | nan, _ => nan
  | _, nan => nan
  | posInf, negInf => nan
  | negInf, posInf => nan
  | posInf, _ => posInf
  | _, posInf => posInf
  | negInf, _ => negInf
  | _, negInf => negInf
  | fin a, fin b => fin (a + b)

/-- IEEE subtraction. -/
def sub (a b : NpFloat) : NpFloat := add a (neg b)

/-- IEEE multiplication (`inf * 0 = nan`). -/
def mul : NpFloat → NpFloat → NpFloat
  | nan, _ => nan
  | _, nan => nan
  | fin a, fin b => fin (a * b)
  | posInf, posInf => posInf
  | posInf, negInf => negInf
  | negInf, posInf => negInf
  | negInf, negInf => posInf
  | posInf, fin b => if b = 0 then nan else if 0 < b then posInf else negInf
  | fin a, posInf => if a = 0 then nan else if 0 < a then posInf else negInf
  | negInf, fin b => if b = 0 then nan else if 0 < b then negInf else posInf
  | fin a, negInf => if a = 0 then nan else if 0 < a then negInf else posInf

/-- IEEE absolute value. -/
def abs : NpFloat → NpFloat
  | fin q => fin |q|
  | posInf => posInf
  | negInf => posInf
  | nan => nan

/-- IEEE `<` (every comparison with nan is false). -/
def ltB : NpFloat → NpFloat → Bool
  | nan, _ => false
  | _, nan => false
  | fin a, fin b => decide (a < b)
  | fin _, posInf => true
  | fin _, negInf => false
  | posInf, _ => false
  | negInf, negInf => false
  | negInf, _ => true

/-- IEEE `≤` (every comparison with nan is false). -/
def leB : NpFloat → NpFloat → Bool
  | nan, _ => false
  | _, nan => false
  | fin a, fin b => decide (a ≤ b)
  | fin _, posInf => true
  | fin _, negInf => false
  | negInf, _ => true
  | posInf, posInf => true
  | posInf, _ => false

/-- IEEE `==` (`nan == nan` is false); Python's `precision in [4, 5]`
membership test uses it. -/
def beq : NpFloat → NpFloat → Bool
  | fin a, fin b => decide (a = b)
  | posInf, posInf => true
  | negInf, negInf => true
  | _, _ => false

/-- `np.isfinite`. -/
def isFinite : NpFloat → Bool
  | fin _ => true
  | _ => false

/-- `np.round` (half to even; infinities and nan pass through). -/
def roundE : NpFloat → NpFloat
  | fin q => fin ((rnd q : ℤ) : ℚ)
  | posInf => posInf
  | negInf => negInf
  | nan => nan

/-- `10.0 ** e`.  In every reachable call the finite exponent is
integer-valued (it is built from floors and integer precisions), so the
non-integer case is left as `nan`. -/
def pow10E : NpFloat → NpFloat
  | fin q => if q.den = 1 then fin (qpow10 q.num) else nan
  | posInf => posInf
  | negInf => fin 0
  | nan => nan

/-- `np.floor(np.log10 _)`: `-inf` at zero, nan for negative arguments,
exact integer for positive rationals. -/
def floorLog10E : NpFloat → NpFloat
  | fin q => if 0 < q then fin ((ratFloorLog10 q : ℤ) : ℚ) else if q = 0 then negInf else nan
  | posInf => posInf
  | negInf => nan
  | nan => nan

/-- `10 * np.log10 _` of the dB branch, with the rendering digits of the
logarithm supplied by the oracle `L` (only the positive finite case consults
it; zero gives `-inf` and negative arguments nan, as in numpy). -/
def tenLog10E (L : ℚ → ℚ) : NpFloat → NpFloat
  | fin q => if 0 < q then fin (10 * L q) else if q = 0 then negInf else nan
  | posInf => posInf
  | negInf => nan
  | nan => nan

/-- Python `int(_)` on a float: truncation, `OverflowError` on infinities,
`ValueError` on nan. -/
def toIntE : NpFloat → Except PucError ℤ
  | fin q => .ok (qtrunc q)
  | posInf => .error .overflow
  | negInf => .error .overflow
  | nan => .error .nanToInt

end NpFloat

/-- `SIPrefix.ATTO.value` of the source enum. -/
def SIPrefix.ATTO : ℤ × String := (-18, "a")

/-- `SIPrefix.FEMTO.value` of the source enum. -/
def SIPrefix.FEMTO : ℤ × String := (-15, "f")

/-- `SIPrefix.PICO.value` of the source enum. -/
def SIPrefix.PICO : ℤ × String := (-12, "p")

/-- `SIPrefix.NANO.value` of the source enum. -/
def SIPrefix.NANO : ℤ × String := (-9, "n")

/-- `SIPrefix.MICRO.value` of the source enum. -/
def SIPrefix.MICRO : ℤ × String := (-6, "µ")

/-- `SIPrefix.MILLI.value` of the source enum. -/
def SIPrefix.MILLI : ℤ × String := (-3, "m")

/-- `SIPrefix.NONE.value` of the source enum. -/
def SIPrefix.NONE : ℤ × String := (0, "")

/-- `SIPrefix.KILO.value` of the source enum. -/
def SIPrefix.KILO : ℤ × String := (3, "k")

/-- `SIPrefix.MEGA.value` of the source enum. -/
def SIPrefix.MEGA : ℤ × String := (6, "M")

/-- `SIPrefix.GIGA.value` of the source enum. -/
def SIPrefix.GIGA : ℤ × String := (9, "G")

/-- `SIPrefix.TERA.value` of the source enum. -/
def SIPrefix.TERA : ℤ × String := (12, "T")

/-- `SIPrefix.PETA.value` of the source enum. -/
def SIPrefix.PETA : ℤ × String := (15, "P")

/-- The threshold chain of `get_prefix(exponent)` from the source, with the
float comparisons given IEEE (`NpFloat.leB`) semantics. -/
def get_prefix (exponent : NpFloat) : ℤ × String :=
  if NpFloat.leB exponent (.fin (-19)) then SIPrefix.NONE
  else if NpFloat.leB exponent (.fin (-16)) then SIPrefix.ATTO
  else if NpFloat.leB exponent (.fin (-13)) then SIPrefix.FEMTO
  else if NpFloat.leB exponent (.fin (-10)) then SIPrefix.PICO
  else if NpFloat.leB exponent (.fin (-7)) then SIPrefix.NANO
  else if NpFloat.leB exponent (.fin (-4)) then SIPrefix.MICRO
  else if NpFloat.leB exponent (.fin (-1)) then SIPrefix.MILLI
  else if NpFloat.leB exponent (.fin 2) then SIPrefix.NONE
  else if NpFloat.leB exponent (.fin 5) then SIPrefix.KILO
  else if NpFloat.leB exponent (.fin 8) then SIPrefix.MEGA
  else if NpFloat.leB exponent (.fin 11) then SIPrefix.GIGA
  else if NpFloat.leB exponent (.fin 14) then SIPrefix.TERA
  else if NpFloat.leB exponent (.fin 17) then SIPrefix.PETA
  else SIPrefix.NONE

/-- Drop trailing `'0'` characters. -/
def stripTrailingZeros (l : List Char) : List Char :=
  (l.reverse.dropWhile (fun c => c == '0')).reverse

/-- Decimal digit to character. -/
def digitChar (n : ℕ) : Char := Char.ofNat (48 + n)

/-- Fuel-driven most-significant-first decimal digits. -/
def natDigitsAux : ℕ → ℕ → List Char
  | 0, _ => []
  | Nat.succ fuel, n =>
    if n < 10 then [digitChar n] else natDigitsAux fuel (n / 10) ++ [digitChar (n % 10)]

/-- Decimal digits of a natural number, most significant first. -/
def natDigits (n : ℕ) : List Char := natDigitsAux (n + 1) n

/-- Exponent field of Python scientific notation, zero-padded to two
digits. -/
def pad2 (n : ℕ) : List Char := if n < 10 then '0' :: natDigits n else natDigits n

/-- Python's `"{0:.Ng}".format x` on an exact rational, `N = pn ≥ 1`:
round to `pn` significant decimal digits (half to even), use fixed notation
iff the decimal exponent of the rounded value is in `[-4, pn)`, otherwise
scientific notation, stripping trailing zeros in either case. -/
def gformatQ (pn : ℕ) (x : ℚ) : String :=
  if x = 0 then "0"
  else
    let sgn : List Char := if x < 0 then ['-'] else []
    let a := |x|
    let e0 : ℤ := ratFloorLog10 a
    let n0 : ℤ := rnd (a * qpow10 ((pn : ℤ) - 1 - e0))
    let carry : Bool := n0 == (10 : ℤ) ^ pn
    let n : ℕ := if carry then (10 : ℕ) ^ (pn - 1) else n0.toNat
    let e : ℤ := if carry then e0 + 1 else e0
    let ds : List Char := natDigits n
    let body : List Char :=
      if -4 ≤ e ∧ e < (pn : ℤ) then
        if 0 ≤ e then
          let ip := ds.take (e.toNat + 1)
          let fp := stripTrailingZeros (ds.drop (e.toNat + 1))
          if fp.isEmpty then ip else ip ++ '.' :: fp
        else
          '0' :: '.' :: (List.replicate ((-e).toNat - 1) '0' ++ stripTrailingZeros ds)
      else
        let m := ds.take 1
        let rest := stripTrailingZeros (ds.drop 1)
        (if rest.isEmpty then m else m ++ '.' :: rest)
          ++ 'e' :: (if e < 0 then '-' else '+') :: pad2 e.natAbs
    ⟨sgn ++ body⟩

/-- `"{0:.Ng}".format x` on the idealised float (`N` is clamped below by 1,
as Python treats precision 0 of `g` as 1; infinities and nan format to their
names). -/
def gformatE (ip : ℤ) : NpFloat → String
  | .fin q => gformatQ (if ip ≤ 0 then 1 else ip.toNat) q
  | .posInf => "inf"
  | .negInf => "-inf"
  | .nan => "nan"

/-- Does the character `a` immediately followed by `b` occur in the list? -/
def hasPairAux (a b : Char) : List Char → Bool
  | [] => false
  | [_] => false
  | x :: y :: rest => (x == a && y == b) || hasPairAux a b (y :: rest)

/-- `"e+" in string`: the source's trigger for re-rendering. -/
def hasEPlus (s : String) : Bool := hasPairAux 'e' '+' s.data

/-- `"e-" in string`: a negative scientific exponent marker (the source
never tests for it). -/
def hasEMinus (s : String) : Bool := hasPairAux 'e' '-' s.data

/-- Replace every occurrence of a character. -/
def replaceChar (old new : Char) (s : String) : String :=
  ⟨s.data.map (fun c => if c == old then new else c)⟩

/-- The `FILE_REPLACEMENTS` pass, applied in the source's dict order
(`µ`->`u`, `.`->`p`, `/`->`p`, `' '`->`_`; all patterns are single
characters). -/
def applyFileRepl (s : String) : String :=
  replaceChar ' ' '_' (replaceChar '/' 'p' (replaceChar '.' 'p' (replaceChar 'µ' 'u' s)))

/-- The `precision` argument: a significant-digit count, or a reference
sequence.  (A non-integer float scalar is a float-only artifact outside this
exact model; every claim uses integer or sequence precisions.) -/
inductive Precision where
  | num (n : ℤ)
  | arr (xs : List ℚ)
deriving DecidableEq

/-- `np.diff`: consecutive differences `x[i+1] - x[i]`, in the given
order. -/
def diffs (xs : List ℚ) : List ℚ := List.zipWith (fun a b => a - b) xs.tail xs

/-- `np.min`, failing on an empty array. -/
def minList : List ℚ → Option ℚ
  | [] => none
  | x :: xs => some (xs.foldl min x)

/-- `astype(float)`: succeeds iff every entry is numeric. -/
def astypeList : List (Option ℚ) → Option (List ℚ)
  | [] => some []
  | some q :: rest => (astypeList rest).map (fun l => q :: l)
  | none :: _ => none

/-- `np.squeeze(value).astype(float)` with the source's try/except: a
one-element collection is unwrapped to a scalar, any non-numeric content
raises the conversion error naming the input, and a multi-element numeric
collection stays an array. -/
def squeezeAstype (value : NpValue) : Except PucError (ℚ ⊕ List ℚ) :=
  match value with
  | .scalar q => .ok (.inl q)
  | .arr xs =>
    match astypeList xs with
    | none => .error (.valueConversion value)
    | some l =>
      match l with
      | [q] => .ok (.inl q)
      | _ => .ok (.inr l)

/-- Lines 73-81 of the source: extract the separator (space takes
precedence over underscore) and the `!` file-compatibility marker from the
unit string. -/
def preprocessUnit (unit : String) (filecompatible : Bool) : String × String × Bool :=
  let su : String × String :=
    if unit.data.contains ' ' then (" ", ⟨unit.data.filter (fun c => !(c == ' '))⟩)
    else if unit.data.contains '_' then ("_", ⟨unit.data.filter (fun c => !(c == '_'))⟩)
    else ("", unit)
  if su.2.data.contains '!' then (su.1, ⟨su.2.data.filter (fun c => !(c == '!'))⟩, true)
  else (su.1, su.2, filecompatible)

/-- Lines 86-90 of the source: resolve the precision specification against
the (sign-stripped) value, returning the working `exponent` and the
effective significant-digit count, both as floats. -/
def resolvePrec (precision : Precision) (val : NpFloat) : Except PucError (NpFloat × NpFloat) :=
  match precision with
  | .arr xs =>
    match minList ((diffs xs).map (fun d => |d|)) with
    | none => .error .zeroSizeReduction
    | some m =>
      let exponent := NpFloat.floorLog10E (.fin m)
      .ok (exponent,
        NpFloat.add (NpFloat.abs (NpFloat.sub exponent (NpFloat.floorLog10E val))) (.fin 1))
  | .num n => .ok (NpFloat.floorLog10E val, .fin (n : ℚ))

/-- Lines 92-94 of the source: round the value to the resolved number of
significant digits, skipped when the working exponent is not finite. -/
def roundVal (val exponent precE : NpFloat) : NpFloat :=
  if NpFloat.isFinite exponent then
    let k := NpFloat.add (NpFloat.sub (NpFloat.neg exponent) (.fin 1)) precE
    NpFloat.mul (NpFloat.roundE (NpFloat.mul val (NpFloat.pow10E k))) (NpFloat.pow10E (NpFloat.neg k))
  else val

/-- Lines 99-102 of the source: subtract 3 from the exponent exactly when
the resolved significant-digit count equals 4 or 5 (float `==` semantics,
so a nan precision never matches). -/
def fixExponent (exponent precE : NpFloat) : NpFloat :=
  if NpFloat.beq precE (.fin 4) || NpFloat.beq precE (.fin 5) then
    NpFloat.sub exponent (.fin 3)
  else exponent

/-- Lines 117-135 of the source, the generic-unit branch: look up the
prefix, render `sign * val * 10 ** (-mult)`, and re-render with one more
significant digit when the rendered text contains `"e+"`.  Returns the
string together with the `(mult, prefix_symbol)` pair bound there. -/
def genericBranch (sign : ℚ) (val exponent : NpFloat) (sep unit : String) (ip : ℤ) :
    String × (ℤ × String) :=
  let mp := get_prefix exponent
  let resid := NpFloat.mul (NpFloat.mul (.fin sign) val) (.fin (qpow10 (-mp.1)))
  let s1 := gformatE ip resid ++ sep ++ mp.2 ++ unit
  (if hasEPlus s1 then gformatE (ip + 1) resid ++ sep ++ mp.2 ++ unit else s1, mp)

/-- Lines 137-147 of the source: filename sanitisation and the return
statement.  `mp` is `some` exactly when the generic branch assigned the
locals `mult` and `prefix`; reading them unassigned under `verbose` is the
`UnboundLocalError`. -/
def finalize (string : String) (mp : Option (ℤ × String)) (verbose filecompatible : Bool) :
    Except PucError PucResult :=
  let s := if filecompatible then applyFileRepl string else string
  if verbose then
    match mp with
    | some q => .ok (.triple s q.1 q.2)
    | none => .error (.unboundLocal "mult")
  else .ok (.str s)

/-- The body of `puc` from the sign-stripped scalar value on (lines
86-147): precision resolution, rounding, exponent recomputation, the 4/5
exponent shift, and the three unit branches. -/
def pucPipeline (L : ℚ → ℚ) (sign : ℚ) (val0 : NpFloat) (sep unit : String)
    (precision : Precision) (verbose filecompatible : Bool) : Except PucError PucResult :=
  match resolvePrec precision val0 with
  | .error e => .error e
  | .ok pe =>
    let val := roundVal val0 pe.1 pe.2
    let exponent := fixExponent (NpFloat.floorLog10E val) pe.2
    if unit == "dB" then
      match NpFloat.toIntE pe.2 with
      | .error e => .error e
      | .ok ip =>
        if ip < 0 then .error .invalidFormatSpec
        else finalize (gformatE ip (NpFloat.tenLog10E L val) ++ sep ++ unit) none
          verbose filecompatible
    else if unit == "%" then
      match NpFloat.toIntE pe.2 with
      | .error e => .error e
      | .ok ip =>
        if ip < 0 then .error .invalidFormatSpec
        else finalize (gformatE ip (NpFloat.mul (.fin (sign * 100)) val) ++ sep ++ unit) none
          verbose filecompatible
    else
      match NpFloat.toIntE pe.2 with
      | .error e => .error e
      | .ok ip =>
        if ip < 0 then .error .invalidFormatSpec
        else
          let g := genericBranch sign val exponent sep unit ip
          finalize g.1 (some g.2) verbose filecompatible

/-- `puc` after the value conversion: unit preprocessing, then the sign
check `if val < 0` (which is the ambiguous-truth-value error site when the
converted value is still a multi-element array), then the pipeline. -/
def pucAfterConvert (L : ℚ → ℚ) (v0 : ℚ ⊕ List ℚ) (unit : String) (precision : Precision)
    (verbose filecompatible : Bool) : Except PucError PucResult :=
  let pre := preprocessUnit unit filecompatible
  match v0 with
  | .inr _ => .error .ambiguousTruth
  | .inl q =>
    let sign : ℚ := if q < 0 then -1 else 1
    pucPipeline L sign (.fin (sign * q)) pre.1 pre.2.1 precision verbose pre.2.2

/-- The formatter `puc(value, unit, precision, verbose, filecompatible)` of
the source, with the dB-branch log10 rendering oracle `L` made explicit. -/
def puc (L : ℚ → ℚ) (value : NpValue) (unit : String) (precision : Precision)
    (verbose filecompatible : Bool) : Except PucError PucResult :=
  match squeezeAstype value with
  | .error e => .error e
  | .ok v0 => pucAfterConvert L v0 unit precision verbose filecompatible

/-- Trivial instantiation of the log10 rendering oracle, used for concrete
evaluations whose branch never consults it. -/
def npLog10Trivial : ℚ → ℚ := fun _ => 0

/-- The multiplier component of a verbose result, when present. -/
def multOf : Except PucError PucResult → Option ℤ
  | .ok (.triple _ m _) => some m
  | _ => none

/-- Insert into a sorted list (ascending). -/
def insertSorted (x : ℚ) : List ℚ → List ℚ
  | [] => [x]
  | y :: ys => if x ≤ y then x :: y :: ys else y :: insertSorted x ys

/-- Insertion sort, ascending. -/
def sortQ : List ℚ → List ℚ
  | [] => []
  | x :: xs => insertSorted x (sortQ xs)

/-- The significant-digit count a reference sequence resolves to according
to the specification's words: "the minimum absolute difference between
consecutive *sorted* elements" in log10 space, then
`|that exponent − floor(log10(|value|))| + 1`.  Stated for comparison with
the source's `resolvePrec`, which does not sort. -/
def specDigitsSorted (xs : List ℚ) (v : ℚ) : ℤ :=
  match minList ((diffs (sortQ xs)).map (fun d => |d|)) with
  | none => 0
  | some m => |ratFloorLog10 m - ratFloorLog10 v| + 1

/-- The residual value and the `(mult, prefix_symbol)` pair the generic-unit
branch works with, for a scalar value and an integer precision: the
sign-stripped value is rounded, the exponent recomputed and shifted, the
prefix looked up, and `sign * val * 10 ** (-mult)` formed — the same steps
`puc` performs before rendering. -/
def genericParts (x : ℚ) (p : ℤ) : NpFloat × (ℤ × String) :=
  let sign : ℚ := if x < 0 then -1 else 1
  let val0 : NpFloat := .fin (sign * x)
  let val := roundVal val0 (NpFloat.floorLog10E val0) (.fin (p : ℚ))
  let mp := get_prefix (fixExponent (NpFloat.floorLog10E val) (.fin (p : ℚ)))
  (NpFloat.mul (NpFloat.mul (.fin sign) val) (.fin (qpow10 (-mp.1))), mp)

/-! ## Helper lemmas -/

/-- `astype(float)` succeeds on an all-numeric list and returns it. -/
theorem astypeList_map_some (xs : List ℚ) : astypeList (xs.map some) = some xs := by
  induction xs with
  | nil => rfl
  | cons a t ih => simp [astypeList, ih]

/-- Python's `int(_)` of an integer-valued float is that integer. -/
theorem qtrunc_intCast (p : ℤ) : qtrunc (p : ℚ) = p := by
  unfold qtrunc
  rw [Rat.intCast_num, Rat.intCast_den]
  exact Int.tdiv_one p

/-! ## The claims -/

/-- C1.  The claim says every verbose call returns a triple, with multiplier
0 and empty prefix for dB/percent.  In the source, `mult` and `prefix` are
only assigned in the generic-unit branch, so a verbose dB or percent call
raises `UnboundLocalError` instead; a generic-unit verbose call does return
the triple. -/
theorem puc_verbose_db_percent_unbound :
    puc npLog10Trivial (.scalar 10) "dB" (.num 3) true false
      = .error (.unboundLocal "mult")
    ∧ puc npLog10Trivial (.scalar (911 / 1000)) "%" (.num 3) true false
      = .error (.unboundLocal "mult")
    ∧ puc npLog10Trivial (.scalar (991 / 1000000000)) "s" (.num 3) true false
      = .ok (.triple "991ns" (-9) "n") := by
  refine ⟨by decide, by decide, by decide⟩

/-- C6.  After rounding, the exponent is recomputed from the rounded value
before prefix selection: 999.999 has exponent 2, rounds at 3 significant
digits to 1000 whose exponent is 3, and the kilo prefix is selected, so
`format(999.999, "W")` is `"1kW"`. -/
theorem puc_exponent_recomputed_after_rounding :
    NpFloat.floorLog10E (.fin (999999 / 1000)) = .fin 2
    ∧ roundVal (.fin (999999 / 1000)) (.fin 2) (.fin 3) = .fin 1000
    ∧ NpFloat.floorLog10E (.fin 1000) = .fin 3
    ∧ get_prefix (.fin 3) = (3, "k")
    ∧ puc npLog10Trivial (.scalar (999999 / 1000)) "W" (.num 3) false false
      = .ok (.str "1kW") := by
  refine ⟨by decide, by decide, by decide, by decide, by decide⟩

/-- C10.  `get_prefix` is total over the idealised floats: with nan every
threshold comparison is false so the final fallback row `(0, "")` is
returned, and both infinities also map to `(0, "")` (negative infinity via
the first row, positive infinity via the fallback). -/
theorem get_prefix_total_nonfinite :
    (∀ x : NpFloat, NpFloat.leB .nan x = false)
    ∧ get_prefix .nan = (0, "")
    ∧ get_prefix .negInf = (0, "")
    ∧ get_prefix .posInf = (0, "") := by
  refine ⟨fun x => by cases x <;> rfl, by decide, by decide, by decide⟩

/-- Unfolding `puc` on a scalar value: preprocessing and sign extraction. -/
theorem puc_scalar_eq (L : ℚ → ℚ) (q : ℚ) (unit : String) (prec : Precision) (vb fc : Bool) :
    puc L (.scalar q) unit prec vb fc
      = pucPipeline L (if q < 0 then -1 else 1) (.fin ((if q < 0 then -1 else 1) * q))
          (preprocessUnit unit fc).1 (preprocessUnit unit fc).2.1 prec vb
          (preprocessUnit unit fc).2.2 := rfl

/-- The dB branch never reads the extracted sign. -/
theorem pipeline_db_sign_irrel (L : ℚ → ℚ) (s t : ℚ) (val : NpFloat) (p : ℤ) (vb fc : Bool) :
    pucPipeline L s val "" "dB" (.num p) vb fc = pucPipeline L t val "" "dB" (.num p) vb fc := rfl

/-- The sign-stripping step produces the absolute value. -/
theorem signIf_mul_self (v : ℚ) : (if v < 0 then (-1 : ℚ) else 1) * v = |v| := by
  rcases lt_or_ge v 0 with h | h
  · rw [if_pos h, abs_of_neg h]; ring
  · rw [if_neg (not_lt.mpr h), abs_of_nonneg h]; ring

/-- C9.  The dB branch works on the sign-stripped magnitude and applies no
prefix: negating the value does not change the output (whatever digits the
log10 oracle yields), and the output is exactly the general-format rendering
of `10 * log10` of the rounded magnitude followed by the (empty) separator
and `"dB"`. -/
theorem puc_db_sign_invariant (L : ℚ → ℚ) (v : ℚ) (p : ℤ) (hv : v ≠ 0) (hp : 0 ≤ p) :
    puc L (.scalar (-v)) "dB" (.num p) false false = puc L (.scalar v) "dB" (.num p) false false
    ∧ puc L (.scalar v) "dB" (.num p) false false
      = .ok (.str (gformatE p (NpFloat.tenLog10E L
          (roundVal (.fin |v|) (NpFloat.floorLog10E (.fin |v|)) (.fin (p : ℚ))))
          ++ "" ++ "dB")) := by
  have habs : puc L (.scalar v) "dB" (.num p) false false
      = pucPipeline L (if v < 0 then -1 else 1) (.fin |v|) "" "dB" (.num p) false false := by
    rw [puc_scalar_eq, signIf_mul_self]; rfl
  constructor
  · have habs2 : puc L (.scalar (-v)) "dB" (.num p) false false
        = pucPipeline L (if -v < 0 then -1 else 1) (.fin |(-v)|) "" "dB" (.num p) false false := by
      rw [puc_scalar_eq, signIf_mul_self]; rfl
    rw [habs, habs2, abs_neg]
    exact pipeline_db_sign_irrel L _ _ _ p false false
  · rw [habs]
    have step : pucPipeline L (if v < 0 then -1 else 1) (.fin |v|) "" "dB" (.num p) false false
        = (if qtrunc (p : ℚ) < 0 then .error .invalidFormatSpec
           else finalize (gformatE (qtrunc (p : ℚ)) (NpFloat.tenLog10E L
             (roundVal (.fin |v|) (NpFloat.floorLog10E (.fin |v|)) (.fin (p : ℚ))))
             ++ "" ++ "dB") none false false) := rfl
    rw [step, qtrunc_intCast p, if_neg (not_lt.mpr hp)]
    rfl

/-- C3, counterexample.  The source only tests for the positive marker
`"e+"`: a tiny value renders as `"1e-20m"` (negative marker, no re-render),
and a huge fallback-row value still renders scientifically even after the
`"e+"`-triggered re-render, so the final output does contain scientific
notation. -/
theorem puc_scientific_marker_not_always_eliminated :
    puc npLog10Trivial (.scalar (1 / 10 ^ 20)) "m" (.num 3) false false = .ok (.str "1e-20m")
    ∧ hasEMinus "1e-20m" = true
    ∧ puc npLog10Trivial (.scalar (10 ^ 18)) "m" (.num 3) false false = .ok (.str "1e+18m")
    ∧ hasEPlus "1e+18m" = true := by
  refine ⟨by decide, by decide, by decide, by decide⟩

/-- C3, as amended.  In the generic-unit branch the re-render with one
additional significant digit happens exactly when the first rendered text
contains `"e+"`; a text containing only `"e-"` is kept as is.  For the
in-table example 0.000123456 at precision 5 the first rendering is
scientific and the re-render eliminates the scientific form. -/
theorem puc_eplus_rerender_exact :
    (∀ (x : ℚ) (p : ℤ), 0 ≤ p →
      puc npLog10Trivial (.scalar x) "m" (.num p) false false
        = .ok (.str
            (if hasEPlus (gformatE p (genericParts x p).1 ++ "" ++ (genericParts x p).2.2 ++ "m")
             then gformatE (p + 1) (genericParts x p).1 ++ "" ++ (genericParts x p).2.2 ++ "m"
             else gformatE p (genericParts x p).1 ++ "" ++ (genericParts x p).2.2 ++ "m")))
    ∧ hasEPlus (gformatE 5 (genericParts (123456 / 1000000000) 5).1 ++ ""
        ++ (genericParts (123456 / 1000000000) 5).2.2 ++ "m") = true
    ∧ puc npLog10Trivial (.scalar (123456 / 1000000000)) "m" (.num 5) false false
      = .ok (.str "123460nm")
    ∧ hasEPlus "123460nm" = false ∧ hasEMinus "123460nm" = false := by
  refine ⟨?_, by decide, by decide, by decide, by decide⟩
  intro x p hp
  rw [puc_scalar_eq]
  simp only [pucPipeline, resolvePrec, NpFloat.toIntE]
  rw [qtrunc_intCast p]
  rw [if_neg (not_lt.mpr hp), if_neg (not_lt.mpr hp), if_neg (not_lt.mpr hp)]
  rfl

/-- C5.  The exponent shift of −3 before prefix selection happens exactly at
a resolved significant-digit count of 4 or 5: structurally for every
exponent and integer count, observably on 0.000123456 over precisions 1..8
(multiplier −9, i.e. the nano row, exactly at 4 and 5, micro otherwise), and
`format(0.000123456, "m", precision=5)` is `"123460nm"`. -/
theorem puc_precision_shift_iff_four_five :
    (∀ (e : NpFloat) (n : ℤ), fixExponent e (.fin (n : ℚ))
      = if n = 4 ∨ n = 5 then NpFloat.sub e (.fin 3) else e)
    ∧ (∀ p : ℤ, 1 ≤ p → p ≤ 8 →
        multOf (puc npLog10Trivial (.scalar (123456 / 1000000000)) "m" (.num p) true false)
          = some (if p = 4 ∨ p = 5 then -9 else -6))
    ∧ puc npLog10Trivial (.scalar (123456 / 1000000000)) "m" (.num 5) false false
      = .ok (.str "123460nm") := by
  refine ⟨?_, ?_, by decide⟩
  · intro e n
    by_cases h4 : n = 4
    · subst h4; norm_num [fixExponent, NpFloat.beq]
    · by_cases h5 : n = 5
      · subst h5; norm_num [fixExponent, NpFloat.beq]
      · have h4q : ¬((n : ℚ) = 4) := by exact_mod_cast h4
        have h5q : ¬((n : ℚ) = 5) := by exact_mod_cast h5
        simp [fixExponent, NpFloat.beq, h4, h5, h4q, h5q]
  · intro p h1 h2
    interval_cases p <;> decide

/-- C7, counterexample.  The claim quantifies over every *real* exponent:
at e = −18.5 (not a fallback row) the atto row is returned, but the residual
e − (−18) = −0.5 is negative, outside [0, 3). -/
theorem get_prefix_residual_fails_on_noninteger :
    get_prefix (.fin (-37 / 2)) = (-18, "a")
    ∧ ((-37 : ℚ) / 2 - (-18) < 0) := by
  refine ⟨by decide, by decide⟩

/-- C7, as amended.  For every *integer* exponent: inside the table range
(−19, 17] the returned multiplier leaves a residual exponent in [0, 3), and
the explicit fallback rows (e ≤ −19 and e > 17) return multiplier 0 with no
symbol. -/
theorem get_prefix_residual_integer_exponents (e : ℤ) :
    ((-19 < e ∧ e ≤ 17) →
      0 ≤ e - ( get_prefix (.fin (e : ℚ))).1 ∧ e - ( get_prefix (.fin (e : ℚ))).1 < 3)
    ∧ ((e ≤ -19 ∨ 17 < e) → get_prefix (.fin (e : ℚ)) = (0, "")) := by
  constructor
  · rintro ⟨h1, h2⟩
    interval_cases e <;> exact ⟨by decide, by decide⟩
  · rintro (h | h)
    · have hq : ((e : ℚ) ≤ -19) := by exact_mod_cast h
      simp [ get_prefix, NpFloat.leB, hq, SIPrefix.NONE]
    · have hm19 : ¬((e : ℚ) ≤ -19) := by exact_mod_cast (by omega : ¬(e ≤ -19))
      have hm16 : ¬((e : ℚ) ≤ -16) := by exact_mod_cast (by omega : ¬(e ≤ -16))
      have hm13 : ¬((e : ℚ) ≤ -13) := by exact_mod_cast (by omega : ¬(e ≤ -13))
      have hm10 : ¬((e : ℚ) ≤ -10) := by exact_mod_cast (by omega : ¬(e ≤ -10))
      have hm7 : ¬((e : ℚ) ≤ -7) := by exact_mod_cast (by omega : ¬(e ≤ -7))
      have hm4 : ¬((e : ℚ) ≤ -4) := by exact_mod_cast (by omega : ¬(e ≤ -4))
      have hm1 : ¬((e : ℚ) ≤ -1) := by exact_mod_cast (by omega : ¬(e ≤ -1))
      have hp2 : ¬((e : ℚ) ≤ 2) := by exact_mod_cast (by omega : ¬(e ≤ 2))
      have hp5 : ¬((e : ℚ) ≤ 5) := by exact_mod_cast (by omega : ¬(e ≤ 5))
      have hp8 : ¬((e : ℚ) ≤ 8) := by exact_mod_cast (by omega : ¬(e ≤ 8))
      have hp11 : ¬((e : ℚ) ≤ 11) := by exact_mod_cast (by omega : ¬(e ≤ 11))
      have hp14 : ¬((e : ℚ) ≤ 14) := by exact_mod_cast (by omega : ¬(e ≤ 14))
      have hp17 : ¬((e : ℚ) ≤ 17) := by exact_mod_cast (by omega : ¬(e ≤ 17))
      simp [ get_prefix, NpFloat.leB, hm19, hm16, hm13, hm10, hm7, hm4, hm1,
        hp2, hp5, hp8, hp11, hp14, hp17, SIPrefix.NONE]

/-- C2, counterexample.  A multi-element *numeric* collection survives
`astype(float)` and fails only later, at the `if val < 0` truth test, with
numpy's ambiguous-truth-value error — not with the conversion error naming
the offending input that the claim requires. -/
theorem puc_multi_numeric_not_conversion_error :
    puc npLog10Trivial (.arr [some 1, some 2]) "m" (.num 3) false false
      = .error .ambiguousTruth
    ∧ (∀ w : NpValue, PucError.ambiguousTruth ≠ .valueConversion w) := by
  refine ⟨by decide, fun w h => by cases h⟩

/-- C2, as amended.  Every multi-element collection fails with no partial
result, but the error depends on the content: an all-numeric collection of
length ≥ 2 reaches the sign check and raises the ambiguous-truth-value
error (for every unit, precision and flag combination), while non-numeric
content is caught at conversion and raises the error naming the offending
input. -/
theorem puc_multi_element_failure_modes :
    (∀ (xs : List ℚ) (unit : String) (prec : Precision) (vb fc : Bool), 2 ≤ xs.length →
      puc npLog10Trivial (.arr (xs.map some)) unit prec vb fc = .error .ambiguousTruth)
    ∧ puc npLog10Trivial (.arr [some 1, none, some 3]) "m" (.num 3) false false
      = .error (.valueConversion (.arr [some 1, none, some 3])) := by
  refine ⟨?_, by decide⟩
  intro xs unit prec vb fc h
  rcases xs with _ | ⟨a, _ | ⟨b, t⟩⟩
  · simp at h
  · simp at h
  · simp only [puc, squeezeAstype, astypeList_map_some]
    rfl

/-- C4, counterexample.  The source does not sort the reference sequence:
on the unsorted sequence [1, 1.5, 1.05] with value 1.234 the claim's
sorted-adjacent-difference formula yields 3 significant digits, but the code
resolves 2 (minimum |diff| is 0.45, exponent −1) and prints "1.2m". -/
theorem puc_array_precision_sorted_formula_fails :
    specDigitsSorted [1, 3 / 2, 21 / 20] (617 / 500) = 3
    ∧ resolvePrec (.arr [1, 3 / 2, 21 / 20]) (.fin (617 / 500)) = .ok (.fin (-1), .fin 2)
    ∧ puc npLog10Trivial (.scalar (617 / 500)) "m" (.arr [1, 3 / 2, 21 / 20]) false false
      = .ok (.str "1.2m") := by
  refine ⟨by decide, by decide, by decide⟩

/-- C4, as amended.  For a reference sequence the resolved significant-digit
count is `|floor(log10(min |diff of consecutive elements, in the order
given|)) − floor(log10 |value|)| + 1` (no sorting), and
`format(1.001, "m", precision=[1.001, 1.002, 1.003])` is `"1001mm"`. -/
theorem puc_array_precision_unsorted_formula (xs : List ℚ) (v d : ℚ)
    (hd : minList ((diffs xs).map (fun a => |a|)) = some d) (hd0 : 0 < d) (hv : 0 < v) :
    resolvePrec (.arr xs) (.fin v)
      = .ok (.fin (ratFloorLog10 d : ℚ),
             .fin (|(ratFloorLog10 d : ℚ) - (ratFloorLog10 v : ℚ)| + 1))
    ∧ puc npLog10Trivial (.scalar (1001 / 1000)) "m"
        (.arr [1001 / 1000, 1002 / 1000, 1003 / 1000]) false false
      = .ok (.str "1001mm") := by
  refine ⟨?_, by decide⟩
  simp only [resolvePrec, hd]
  rw [show NpFloat.floorLog10E (.fin d) = .fin (ratFloorLog10 d : ℚ) from by
    simp [NpFloat.floorLog10E, hd0]]
  rw [show NpFloat.floorLog10E (.fin v) = .fin (ratFloorLog10 v : ℚ) from by
    simp [NpFloat.floorLog10E, hv]]
  simp [NpFloat.sub, NpFloat.add, NpFloat.neg, NpFloat.abs, sub_eq_add_neg]

/-- C8.  A value of exactly zero is not an error: the working exponent is
−inf, so the rounding step is skipped (first conjunct), the prefix lookup
receives −inf and returns no prefix, and the rendering yields the digit "0",
so `format(0, "W")` is `"0W"` at every non-negative precision. -/
theorem puc_zero_value_renders_zero (p : ℤ) (hp : 0 ≤ p) :
    roundVal (.fin 0) (NpFloat.floorLog10E (.fin 0)) (.fin (p : ℚ)) = .fin 0
    ∧ puc npLog10Trivial (.scalar 0) "W" (.num p) false false = .ok (.str "0W") := by
  constructor
  · rfl
  · have hfix : fixExponent NpFloat.negInf (.fin (p : ℚ)) = NpFloat.negInf := by
      unfold fixExponent; split <;> rfl
    have step1 : puc npLog10Trivial (.scalar 0) "W" (.num p) false false
        = pucPipeline npLog10Trivial 1 (.fin 0) "" "W" (.num p) false false := rfl
    rw [step1]
    simp only [pucPipeline, resolvePrec, NpFloat.toIntE]
    rw [show roundVal (.fin 0) (NpFloat.floorLog10E (.fin 0)) (.fin (p : ℚ)) = .fin 0 from rfl]
    rw [show NpFloat.floorLog10E (.fin 0) = .negInf from rfl]
    rw [hfix]
    rw [qtrunc_intCast p]
    rw [if_neg (not_lt.mpr hp), if_neg (not_lt.mpr hp), if_neg (not_lt.mpr hp)]
    rfl

/-- Witness for `puc_multi_element_failure_modes` at the concrete numeric
collection [1, 2]. -/
theorem puc_multi_element_failure_modes_witness :
    puc npLog10Trivial (.arr ([1, 2].map some)) "" (.num 3) false false
      = .error .ambiguousTruth :=
  puc_multi_element_failure_modes.1 [1, 2] "" (.num 3) false false (by decide)

/-- Witness for `puc_eplus_rerender_exact` at value 2, precision 3. -/
theorem puc_eplus_rerender_exact_witness :
    puc npLog10Trivial (.scalar 2) "m" (.num 3) false false
      = .ok (.str
          (if hasEPlus (gformatE 3 (genericParts 2 3).1 ++ "" ++ (genericParts 2 3).2.2 ++ "m")
           then gformatE (3 + 1) (genericParts 2 3).1 ++ "" ++ (genericParts 2 3).2.2 ++ "m"
           else gformatE 3 (genericParts 2 3).1 ++ "" ++ (genericParts 2 3).2.2 ++ "m")) :=
  puc_eplus_rerender_exact.1 2 3 (by decide)

/-- Witness for `puc_array_precision_unsorted_formula` at sequence [1, 2]
and value 1. -/
theorem puc_array_precision_unsorted_formula_witness :
    resolvePrec (.arr [1, 2]) (.fin 1)
      = .ok (.fin (ratFloorLog10 1 : ℚ),
             .fin (|(ratFloorLog10 1 : ℚ) - (ratFloorLog10 1 : ℚ)| + 1))
    ∧ puc npLog10Trivial (.scalar (1001 / 1000)) "m"
        (.arr [1001 / 1000, 1002 / 1000, 1003 / 1000]) false false
      = .ok (.str "1001mm") :=
  puc_array_precision_unsorted_formula [1, 2] 1 1 (by decide) (by decide) (by decide)

/-- Witness for `puc_precision_shift_iff_four_five` at precisions 4 and 5. -/
theorem puc_precision_shift_iff_four_five_witness :
    fixExponent (.fin (-4)) (.fin ((4 : ℤ) : ℚ))
      = (if (4 : ℤ) = 4 ∨ (4 : ℤ) = 5 then NpFloat.sub (.fin (-4)) (.fin 3) else .fin (-4))
    ∧ multOf (puc npLog10Trivial (.scalar (123456 / 1000000000)) "m" (.num 5) true false)
      = some (if (5 : ℤ) = 4 ∨ (5 : ℤ) = 5 then -9 else -6) :=
  ⟨puc_precision_shift_iff_four_five.1 (.fin (-4)) 4,
   puc_precision_shift_iff_four_five.2.1 5 (by decide) (by decide)⟩

/-- Witness for `get_prefix_residual_integer_exponents` at exponents 2
(in range) and 18 (fallback). -/
theorem get_prefix_residual_integer_exponents_witness :
    (0 ≤ (2 : ℤ) - ( get_prefix (.fin ((2 : ℤ) : ℚ))).1
      ∧ (2 : ℤ) - ( get_prefix (.fin ((2 : ℤ) : ℚ))).1 < 3)
    ∧ get_prefix (.fin ((18 : ℤ) : ℚ)) = (0, "") :=
  ⟨(get_prefix_residual_integer_exponents 2).1 (by decide),
   (get_prefix_residual_integer_exponents 18).2 (Or.inr (by decide))⟩

/-- Witness for `puc_zero_value_renders_zero` at precision 3. -/
theorem puc_zero_value_renders_zero_witness :
    roundVal (.fin 0) (NpFloat.floorLog10E (.fin 0)) (.fin ((3 : ℤ) : ℚ)) = .fin 0
    ∧ puc npLog10Trivial (.scalar 0) "W" (.num 3) false false = .ok (.str "0W") :=
  puc_zero_value_renders_zero 3 (by decide)

/-- Witness for `puc_db_sign_invariant` at value 3, precision 3, with the
trivial oracle. -/
theorem puc_db_sign_invariant_witness :
    puc npLog10Trivial (.scalar (-3)) "dB" (.num 3) false false
      = puc npLog10Trivial (.scalar 3) "dB" (.num 3) false false
    ∧ puc npLog10Trivial (.scalar 3) "dB" (.num 3) false false
      = .ok (.str (gformatE 3 (NpFloat.tenLog10E npLog10Trivial
          (roundVal (.fin |(3 : ℚ)|) (NpFloat.floorLog10E (.fin |(3 : ℚ)|))
            (.fin ((3 : ℤ) : ℚ)))) ++ "" ++ "dB")) :=
  puc_db_sign_invariant npLog10Trivial 3 3 (by decide) (by decide)
